import Mathlib

/-!
Shallow embedding of the `cosmoscrow` escrow contract
(`contracts/cosmoscrow/src/{state.rs, contract.rs, error.rs, msg.rs}`) and
proofs of the specification claims about it.

Addresses are modelled as strings (CosmWasm `Addr` wraps a `String`; equality
is string equality).  Coin amounts are `Nat` (`Uint128`; no arithmetic is
performed on them beyond a zero test, so no modular reduction is needed).
Contract storage is modelled as explicit state passing; a failing execute
call returns an error and, per CosmWasm's all-or-nothing commit semantics,
no successor state.
-/

set_option autoImplicit false

universe u

namespace Cosmoscrow

variable {α : Type u}

abbrev Addr := String

structure Coin where
  denom : String
  amount : Nat
deriving DecidableEq, Repr

/-- `Escrow` record, field-for-field from `state.rs`. -/
structure Escrow where
  id : Nat
  creator : Addr
  beneficiary : Addr
  amount : Coin
  approver1 : Addr
  approver2 : Addr
  approver3 : Option Addr
  description : String
  approvals : List Addr
  is_completed : Bool
  created_at : Nat
  completed_at : Option Nat
deriving DecidableEq, Repr

/-! ### Sorting and adjacent deduplication

`required_approvals`, `total_approvers` and `update_escrow_indexes` all build
`vec![approver1, approver2] (++ approver3)`, then `sort()` and `dedup()` it.
Rust's `Vec::sort` is modelled by insertion sort over the linear order, and
`Vec::dedup` (which removes *adjacent* duplicates) by `dedupAdj`. -/

def insort [LinearOrder α] (a : α) : List α → List α
  | [] => [a]
  | b :: bs => if a ≤ b then a :: b :: bs else b :: insort a bs

def isort [LinearOrder α] (l : List α) : List α := l.foldr insort []

def dedupAdj [DecidableEq α] : List α → List α
  | [] => []
  | [a] => [a]
  | a :: b :: rest => if a = b then dedupAdj (b :: rest) else a :: dedupAdj (b :: rest)

theorem mem_insort [LinearOrder α] (a x : α) (l : List α) :
    x ∈ insort a l ↔ x = a ∨ x ∈ l := by
  induction l with
  | nil => simp [insort]
  | cons b bs ih =>
    simp only [insort]
    split
    · simp
    · simp [ih]; tauto

theorem mem_isort [LinearOrder α] (x : α) (l : List α) : x ∈ isort l ↔ x ∈ l := by
  induction l with
  | nil => simp [isort]
  | cons b bs ih => simp [isort, mem_insort] at *; tauto

theorem sorted_insort [LinearOrder α] (a : α) (l : List α)
    (h : l.Sorted (· ≤ ·)) : (insort a l).Sorted (· ≤ ·) := by
  induction l with
  | nil => simp [insort]
  | cons b bs ih =>
    simp only [insort]
    rw [List.sorted_cons] at h
    split
    · rename_i hab
      rw [List.sorted_cons]
      refine ⟨?_, by rw [List.sorted_cons]; exact h⟩
      intro x hx
      rw [List.mem_cons] at hx
      rcases hx with hx | hx
      · exact hx ▸ hab
      · exact le_trans hab (h.1 x hx)
    · rename_i hab
      rw [List.sorted_cons]
      refine ⟨?_, ih h.2⟩
      intro x hx
      rw [mem_insort] at hx
      rcases hx with hx | hx
      · exact hx ▸ le_of_not_le hab
      · exact h.1 x hx

theorem sorted_isort [LinearOrder α] (l : List α) : (isort l).Sorted (· ≤ ·) := by
  induction l with
  | nil => simp [isort]
  | cons b bs ih => exact sorted_insort b (isort bs) ih

theorem mem_dedupAdj [DecidableEq α] (x : α) (l : List α) :
    x ∈ dedupAdj l ↔ x ∈ l := by
  induction l with
  | nil => simp [dedupAdj]
  | cons a rest ih =>
    match rest, ih with
    | [], _ => simp [dedupAdj]
    | b :: rest, ih =>
      simp only [dedupAdj]
      split
      · rename_i hab
        subst hab
        rw [ih]
        simp
      · simp [ih]

theorem nodup_dedupAdj [DecidableEq α] [LinearOrder α] (l : List α)
    (h : l.Sorted (· ≤ ·)) : (dedupAdj l).Nodup := by
  induction l with
  | nil => simp [dedupAdj]
  | cons a rest ih =>
    match rest, ih with
    | [], _ => simp [dedupAdj]
    | b :: rest, ih =>
      rw [List.sorted_cons] at h
      simp only [dedupAdj]
      split
      · exact ih h.2
      · rename_i hab
        refine List.nodup_cons.mpr ⟨?_, ih h.2⟩
        rw [mem_dedupAdj, List.mem_cons]
        intro hmem
        rcases hmem with hmem | hmem
        · exact hab hmem
        · have h1 : a ≤ b := h.1 b (by simp)
          have h2 : b ≤ a := by
            have hs := h.2
            rw [List.sorted_cons] at hs
            exact hs.1 a hmem
          exact hab (le_antisymm h1 h2)

/-- Sort-then-adjacently-dedup, the combination used throughout the contract. -/
def sortDedup [DecidableEq α] [LinearOrder α] (l : List α) : List α :=
  dedupAdj (isort l)

theorem mem_sortDedup [DecidableEq α] [LinearOrder α] (x : α) (l : List α) :
    x ∈ sortDedup l ↔ x ∈ l := by
  rw [sortDedup, mem_dedupAdj, mem_isort]

theorem nodup_sortDedup [DecidableEq α] [LinearOrder α] (l : List α) :
    (sortDedup l).Nodup :=
  nodup_dedupAdj _ (sorted_isort l)

theorem length_sortDedup_eq_card [DecidableEq α] [LinearOrder α] (l : List α) :
    (sortDedup l).length = l.toFinset.card := by
  have hnd := nodup_sortDedup l
  have : (sortDedup l).toFinset = l.toFinset := by
    ext x
    simp [List.mem_toFinset, mem_sortDedup]
  rw [← List.toFinset_card_of_nodup hnd, this]

/-! ### Escrow methods, from `state.rs` -/

/-- The approver slots of an escrow, in slot order:
`vec![approver1, approver2]` extended with `approver3` when present. -/
def Escrow.approverSlots (e : Escrow) : List Addr :=
  [e.approver1, e.approver2] ++ (match e.approver3 with
    | some a => [a]
    | none => [])

def Escrow.is_approver (e : Escrow) (addr : Addr) : Bool :=
  e.approver1 = addr || e.approver2 = addr || e.approver3 = some addr

def Escrow.has_approved (e : Escrow) (addr : Addr) : Bool :=
  e.approvals.contains addr

/-- The lexicographic order on addresses, taken on the underlying character
list.  (It agrees with `Rust`'s byte order on the addresses we reason about;
the library's `String` order instance is kernel-opaque via `String.ltb`, so
the character-list form is used to keep the embedding computable.) -/
def addrOrder : LinearOrder Addr :=
  LinearOrder.lift' (fun a : String => a.data)
    (fun a b h => by cases a; cases b; exact congrArg String.mk h)

/-- `unique_approvers` as computed in `state.rs` / `contract.rs`:
slots, sorted, with adjacent duplicates removed. -/
def Escrow.unique_approvers (e : Escrow) : List Addr :=
  @sortDedup Addr instDecidableEqString addrOrder e.approverSlots

def Escrow.required_approvals (e : Escrow) : Nat :=
  match e.unique_approvers.length with
  | 0 => 0
  | 1 => 1
  | 2 => 2
  | _ => 2

def Escrow.total_approvers (e : Escrow) : Nat :=
  e.unique_approvers.length

def Escrow.can_be_released (e : Escrow) : Bool :=
  !e.is_completed && e.approvals.length ≥ e.required_approvals

theorem dedupAdj_sublist [DecidableEq α] (l : List α) : List.Sublist (dedupAdj l) l := by
  induction l with
  | nil => simp [dedupAdj]
  | cons a rest ih =>
    match rest, ih with
    | [], _ => simp [dedupAdj]
    | b :: rest, ih =>
      simp only [dedupAdj]
      split
      · exact ih.trans (List.sublist_cons_self a (b :: rest))
      · exact ih.cons₂ a

theorem sorted_sortDedup [DecidableEq α] [LinearOrder α] (l : List α) :
    (sortDedup l).Sorted (· ≤ ·) :=
  (sorted_isort l).sublist (dedupAdj_sublist (isort l))

theorem toFinset_sortDedup [DecidableEq α] [LinearOrder α] (l : List α) :
    (sortDedup l).toFinset = l.toFinset := by
  ext x
  simp [List.mem_toFinset, mem_sortDedup]

/-- Sorting then adjacently deduplicating a list is the same as enumerating
its set of elements in ascending order. -/
theorem sortDedup_eq_sort_toFinset [DecidableEq α] [LinearOrder α] (l : List α) :
    sortDedup l = l.toFinset.sort (· ≤ ·) := by
  apply List.eq_of_perm_of_sorted ?_ (sorted_sortDedup l) (Finset.sort_sorted _ _)
  apply List.perm_of_nodup_nodup_toFinset_eq (nodup_sortDedup l) (Finset.sort_nodup _ _)
  rw [toFinset_sortDedup]
  ext x
  simp [List.mem_toFinset, Finset.mem_sort]

/-! ### Errors, messages and environment, from `error.rs` and `cosmwasm_std` -/

/-- The two `cosmwasm_std::StdError` shapes the contract can hit:
`NotFound` from `Map::load` on a missing key, and the generic error that
`Api::addr_validate` returns on a malformed address.  Both reach the caller
wrapped in `ContractError::Std`. -/
inductive StdError
  | notFound
  | genericErr
deriving DecidableEq, Repr

inductive ContractError
  | std (e : StdError)
  | unauthorized
  | escrowNotFound
  | escrowCompleted
  | insufficientFunds
  | invalidBeneficiary
  | invalidApprover
  | alreadyApproved
  | cannotSelfApprove
  | conditionsNotMet
deriving DecidableEq, Repr

/-- `BankMsg::Send` -/
structure BankMsg where
  to_address : Addr
  amount : List Coin
deriving DecidableEq, Repr

structure Response where
  messages : List BankMsg
  attributes : List (String × String)
deriving DecidableEq, Repr

/-- The single piece of the environment the contract reads:
`env.block.time.seconds()`. -/
structure Env where
  block_time : Nat
deriving DecidableEq, Repr

structure MessageInfo where
  sender : Addr
  funds : List Coin
deriving DecidableEq, Repr

/-- `Display` of a `cosmwasm_std::Coin`: amount followed by denom. -/
def coinToString (c : Coin) : String :=
  toString c.amount ++ c.denom

/-! ### Contract storage, from `state.rs`

`Item`/`Map` cells are modelled as fields; a `Map` is a function to
`Option`, `none` meaning the key is absent (`load` fails). -/

structure State where
  escrow_counter : Nat
  escrows : Nat → Option Escrow
  escrows_by_creator : Addr → Option (List Nat)
  escrows_by_beneficiary : Addr → Option (List Nat)
  escrows_by_approver : Addr → Option (List Nat)

/-- `Map::save` (and the write half of `Map::update`). -/
def mapSave {κ ν : Type} [DecidableEq κ] (m : κ → Option ν) (k : κ) (v : ν) :
    κ → Option ν :=
  fun x => if x = k then some v else m x

/-- The loop body of `update_escrow_indexes` for one (distinct) approver
address: push the id unless present when adding, retain everything but the
id when removing. -/
def approver_index_update (eid : Nat) (add : Bool) (st : State) (a : Addr) : State :=
  let ids := (st.escrows_by_approver a).getD []
  { st with escrows_by_approver :=
    (mapSave st.escrows_by_approver a
      (if add then (if ids.contains eid then ids else ids ++ [eid])
       else ids.filter (fun i => i ≠ eid))) }

/-- `update_escrow_indexes` from `contract.rs`.  The creator and beneficiary
entries push/retain unconditionally; the approver entries are updated once
per distinct approver address (sorted + deduplicated slots), and the add
branch is guarded by a `contains` check. -/
def update_escrow_indexes (s : State) (e : Escrow) (add : Bool) : State :=
  let creatorIds := (s.escrows_by_creator e.creator).getD []
  let s1 := { s with escrows_by_creator :=
    (mapSave s.escrows_by_creator e.creator
      (if add then creatorIds ++ [e.id] else creatorIds.filter (fun i => i ≠ e.id))) }
  let benIds := (s1.escrows_by_beneficiary e.beneficiary).getD []
  let s2 := { s1 with escrows_by_beneficiary :=
    (mapSave s1.escrows_by_beneficiary e.beneficiary
      (if add then benIds ++ [e.id] else benIds.filter (fun i => i ≠ e.id))) }
  e.unique_approvers.foldl (approver_index_update e.id add) s2

/-! ### Execute entry points, from `contract.rs`

`api : String → Option Addr` stands for the host's `Api::addr_validate`
(`none` = malformed input, which the contract turns into a `Std` error via
`?`). -/

def addr_validate (api : String → Option Addr) (input : String) :
    Except ContractError Addr :=
  match api input with
  | some a => Except.ok a
  | none => Except.error (ContractError.std StdError.genericErr)

def execute_create_escrow (api : String → Option Addr) (s : State) (env : Env)
    (info : MessageInfo) (beneficiary approver1 approver2 : String)
    (approver3 : Option String) (description : String) :
    Except ContractError (State × Response) :=
  -- `info.funds.len() != 1` check, then `info.funds[0]`: one coin or error
  match info.funds with
  | [amount] =>
    if amount.amount = 0 then Except.error ContractError.insufficientFunds
    else
      match addr_validate api beneficiary with
      | Except.error err => Except.error err
      | Except.ok beneficiary_addr =>
      match addr_validate api approver1 with
      | Except.error err => Except.error err
      | Except.ok approver1_addr =>
      match addr_validate api approver2 with
      | Except.error err => Except.error err
      | Except.ok approver2_addr =>
      match (match approver3 with
             | some a3 => (addr_validate api a3).map some
             | none => Except.ok none) with
      | Except.error err => Except.error err
      | Except.ok approver3_addr =>
        let escrow_id := s.escrow_counter + 1
        let escrow : Escrow :=
          { id := escrow_id
            creator := info.sender
            beneficiary := beneficiary_addr
            amount := amount
            approver1 := approver1_addr
            approver2 := approver2_addr
            approver3 := approver3_addr
            description := description
            approvals := []
            is_completed := false
            created_at := env.block_time
            completed_at := none }
        let s1 := { s with escrow_counter := escrow_id
                           escrows := mapSave s.escrows escrow_id escrow }
        let s2 := update_escrow_indexes s1 escrow true
        Except.ok (s2,
          { messages := []
            attributes := [("method", "create_escrow"),
                           ("escrow_id", toString escrow_id),
                           ("creator", info.sender),
                           ("beneficiary", beneficiary),
                           ("amount", coinToString amount),
                           ("description", description)] })
  | _ => Except.error ContractError.insufficientFunds

def execute_approve_release (s : State) (env : Env) (info : MessageInfo)
    (escrow_id : Nat) : Except ContractError (State × Response) :=
  match s.escrows escrow_id with
  | none => Except.error (ContractError.std StdError.notFound)
  | some escrow =>
    if escrow.is_completed then Except.error ContractError.escrowCompleted
    else if ! escrow.is_approver info.sender then
      Except.error ContractError.unauthorized
    else if escrow.has_approved info.sender then
      Except.error ContractError.alreadyApproved
    else
      let escrow1 := { escrow with approvals := escrow.approvals ++ [info.sender] }
      let response : Response :=
        { messages := []
          attributes := [("method", "approve_release"),
                         ("escrow_id", toString escrow_id),
                         ("approver", info.sender),
                         ("total_approvals", toString escrow1.approvals.length)] }
      if escrow1.can_be_released then
        let escrow2 := { escrow1 with is_completed := true
                                      completed_at := some env.block_time }
        let bank_msg : BankMsg :=
          { to_address := escrow2.beneficiary, amount := [escrow2.amount] }
        let response2 :=
          { response with
              messages := response.messages ++ [bank_msg]
              attributes := response.attributes ++
                [("released", "true"),
                 ("released_to", escrow2.beneficiary),
                 ("amount_released", coinToString escrow2.amount)] }
        Except.ok ({ s with escrows := mapSave s.escrows escrow_id escrow2 }, response2)
      else
        Except.ok ({ s with escrows := mapSave s.escrows escrow_id escrow1 }, response)

def execute_cancel_escrow (s : State) (_env : Env) (info : MessageInfo)
    (escrow_id : Nat) : Except ContractError (State × Response) :=
  match s.escrows escrow_id with
  | none => Except.error (ContractError.std StdError.notFound)
  | some escrow =>
    if escrow.creator ≠ info.sender then Except.error ContractError.unauthorized
    else if escrow.is_completed then Except.error ContractError.escrowCompleted
    else if ! escrow.approvals.isEmpty then Except.error ContractError.unauthorized
    else
      let escrow1 := { escrow with is_completed := true }
      let bank_msg : BankMsg :=
        { to_address := escrow1.creator, amount := [escrow1.amount] }
      let s1 := update_escrow_indexes s escrow1 false
      let s2 := { s1 with escrows := mapSave s1.escrows escrow_id escrow1 }
      Except.ok (s2,
        { messages := [bank_msg]
          attributes := [("method", "cancel_escrow"),
                         ("escrow_id", toString escrow_id),
                         ("refunded_to", escrow1.creator)] })

/-- `query_escrows_by_address` from `contract.rs`.  `EscrowResponse` copies
the record field-for-field, so the projection is modelled as the record
itself. -/
def query_escrows_by_address (api : String → Option Addr) (s : State)
    (address : String) (start_after : Option Nat) (limit : Option Nat) :
    Except StdError (List Escrow) :=
  match api address with
  | none => Except.error StdError.genericErr
  | some addr =>
    let lim := limit.getD 10
    let start := start_after.getD 0
    let ids0 := ((s.escrows_by_creator addr).getD [])
                  ++ ((s.escrows_by_beneficiary addr).getD [])
                  ++ ((s.escrows_by_approver addr).getD [])
    let filtered_ids := ((sortDedup ids0).filter (fun id => id > start)).take lim
    Except.ok (filtered_ids.filterMap s.escrows)

/-- The storage visible after an execute call: CosmWasm commits writes only
when the call succeeds, so an error leaves storage as it was. -/
def stateAfter (s : State) (r : Except ContractError (State × Response)) : State :=
  match r with
  | Except.ok (s1, _) => s1
  | Except.error _ => s

/-! ### Concrete fixtures used by witnesses and counterexamples -/

def coinA : Coin := { denom := "ujuno", amount := 1000 }

/-- A concrete stand-in for the host's address validator, used only in
witnesses and counterexamples: it rejects exactly the empty string. -/
def api0 : String → Option Addr := fun a => if a = "" then none else some a

/-- An open escrow with three distinct approvers. -/
def escrowA : Escrow :=
  { id := 1
    creator := "alice"
    beneficiary := "bob"
    amount := coinA
    approver1 := "carol"
    approver2 := "dan"
    approver3 := some "erin"
    description := "demo"
    approvals := []
    is_completed := false
    created_at := 5
    completed_at := none }

def stateA : State :=
  { escrow_counter := 1
    escrows := fun n => if n = 1 then some escrowA else none
    escrows_by_creator := fun a => if a = "alice" then some [1] else none
    escrows_by_beneficiary := fun a => if a = "bob" then some [1] else none
    escrows_by_approver := fun a =>
      if a = "carol" || a = "dan" || a = "erin" then some [1] else none }

def envA : Env := { block_time := 7 }

/-! ### Theorems for the specification claims -/

/-- C1: for every escrow, `required_approvals` is determined by the number
of distinct addresses among the approver1/approver2/approver3 slots: 1
distinct approver requires 1 approval, 2 distinct require 2, and 3 distinct
require 2 (never 3). -/
theorem required_approvals_matches_distinct_count (e : Escrow) :
    (e.approverSlots.toFinset.card = 1 → e.required_approvals = 1) ∧
    (e.approverSlots.toFinset.card = 2 → e.required_approvals = 2) ∧
    (e.approverSlots.toFinset.card = 3 → e.required_approvals = 2) := by
  have hlen : e.unique_approvers.length = e.approverSlots.toFinset.card :=
    @length_sortDedup_eq_card Addr instDecidableEqString addrOrder e.approverSlots
  unfold Escrow.required_approvals
  refine ⟨?_, ?_, ?_⟩ <;> intro h <;> rw [hlen, h]

/-- Witness for C1 on a concrete escrow with three distinct approvers. -/
theorem required_approvals_matches_distinct_count_witness :
    escrowA.approverSlots.toFinset.card = 3 ∧ escrowA.required_approvals = 2 :=
  ⟨by decide, (required_approvals_matches_distinct_count escrowA).2.2 (by decide)⟩

/-- Appending an approval leaves the approver slots, hence the quorum, as
they were. -/
theorem required_approvals_append (e : Escrow) (a : Addr) :
    ({ e with approvals := e.approvals ++ [a] } : Escrow).required_approvals
      = e.required_approvals := rfl

/-- C2: a successful ApproveRelease appends the caller to `approvals`;
exactly when the resulting approval count reaches `required_approvals()`
it marks the record completed with `completed_at = now` and emits the
bank transfer of the stored coin to the beneficiary, and otherwise it
emits no message and leaves `is_completed` false. -/
theorem approve_release_effect (s : State) (env : Env) (info : MessageInfo)
    (escrow_id : Nat) (e : Escrow)
    (he : s.escrows escrow_id = some e)
    (hc : e.is_completed = false)
    (ha : e.is_approver info.sender = true)
    (hn : e.has_approved info.sender = false) :
    ∃ s' r, execute_approve_release s env info escrow_id = Except.ok (s', r) ∧
      (if e.approvals.length + 1 ≥ e.required_approvals then
        s'.escrows escrow_id
          = some { e with approvals := e.approvals ++ [info.sender]
                          is_completed := true
                          completed_at := some env.block_time }
          ∧ r.messages = [{ to_address := e.beneficiary, amount := [e.amount] }]
      else
        s'.escrows escrow_id = some { e with approvals := e.approvals ++ [info.sender] }
          ∧ r.messages = []
          ∧ ({ e with approvals := e.approvals ++ [info.sender] } : Escrow).is_completed
              = false) := by
  have hcan : ({ e with approvals := e.approvals ++ [info.sender] } : Escrow).can_be_released
      = decide (e.approvals.length + 1 ≥ e.required_approvals) := by
    simp [Escrow.can_be_released, hc, required_approvals_append]
    exact Iff.rfl
  simp only [execute_approve_release, he]
  rw [if_neg (by simp [hc]), if_neg (by simp [ha]), if_neg (by simp [hn]), hcan]
  by_cases hrel : e.approvals.length + 1 ≥ e.required_approvals
  · rw [if_pos (by simp [hrel])]
    refine ⟨_, _, rfl, ?_⟩
    simp [mapSave, hrel]
  · rw [if_neg (by simp [hrel])]
    refine ⟨_, _, rfl, ?_⟩
    simp [mapSave, hrel, hc]

/-- Witness for C2: the first approval on a 3-distinct-approver escrow is
below quorum. -/
theorem approve_release_effect_witness :
    ∃ s' r, execute_approve_release stateA envA
        { sender := "carol", funds := [] } 1 = Except.ok (s', r) ∧
      (if escrowA.approvals.length + 1 ≥ escrowA.required_approvals then
        s'.escrows 1
          = some { escrowA with approvals := escrowA.approvals ++ ["carol"]
                                is_completed := true
                                completed_at := some envA.block_time }
          ∧ r.messages = [{ to_address := escrowA.beneficiary, amount := [escrowA.amount] }]
      else
        s'.escrows 1 = some { escrowA with approvals := escrowA.approvals ++ ["carol"] }
          ∧ r.messages = []
          ∧ ({ escrowA with approvals := escrowA.approvals ++ ["carol"] } : Escrow).is_completed
              = false) :=
  approve_release_effect stateA envA { sender := "carol", funds := [] } 1 escrowA
    rfl rfl rfl rfl

/-- C3: ApproveRelease checks its preconditions in order — record exists
(else the storage not-found error), not completed (else EscrowCompleted),
caller is an approver (else Unauthorized), caller has not already approved
(else AlreadyApproved) — and an error leaves the committed storage
unchanged.  In particular a completed escrow always answers EscrowCompleted. -/
theorem approve_release_error_order (s : State) (env : Env) (info : MessageInfo)
    (escrow_id : Nat) :
    (s.escrows escrow_id = none →
      execute_approve_release s env info escrow_id
        = Except.error (ContractError.std StdError.notFound)) ∧
    (∀ e, s.escrows escrow_id = some e →
      (e.is_completed = true →
        execute_approve_release s env info escrow_id
          = Except.error ContractError.escrowCompleted) ∧
      (e.is_completed = false → e.is_approver info.sender = false →
        execute_approve_release s env info escrow_id
          = Except.error ContractError.unauthorized) ∧
      (e.is_completed = false → e.is_approver info.sender = true →
        e.has_approved info.sender = true →
        execute_approve_release s env info escrow_id
          = Except.error ContractError.alreadyApproved)) ∧
    (∀ err, execute_approve_release s env info escrow_id = Except.error err →
      stateAfter s (execute_approve_release s env info escrow_id) = s) := by
  refine ⟨?_, ?_, ?_⟩
  · intro h
    simp [execute_approve_release, h]
  · intro e he
    refine ⟨?_, ?_, ?_⟩
    · intro hc
      simp only [execute_approve_release, he]
      rw [if_pos (by simp [hc])]
    · intro hc ha
      simp only [execute_approve_release, he]
      rw [if_neg (by simp [hc]), if_pos (by simp [ha])]
    · intro hc ha hap
      simp only [execute_approve_release, he]
      rw [if_neg (by simp [hc]), if_neg (by simp [ha]), if_pos (by simp [hap])]
  · intro err herr
    rw [herr]
    rfl

/-- A terminal (completed) copy of `escrowA`, and the state holding it. -/
def escrowDone : Escrow := { escrowA with is_completed := true, completed_at := some 6 }

def stateDone : State :=
  { stateA with escrows := fun n => if n = 1 then some escrowDone else none }

/-- Witness for C3 on concrete data: a completed escrow answers
EscrowCompleted. -/
theorem approve_release_error_order_witness :
    execute_approve_release stateDone envA { sender := "carol", funds := [] } 1
      = Except.error ContractError.escrowCompleted :=
  ((approve_release_error_order stateDone envA
      { sender := "carol", funds := [] } 1).2.1 escrowDone rfl).1 rfl

/-- C4: CancelEscrow checks, in order: record exists, caller is the creator
(else Unauthorized), record not completed (else EscrowCompleted), and no
approval recorded yet — a non-empty approvals list fails with Unauthorized,
the same error kind as the authorization failure. -/
theorem cancel_escrow_error_order (s : State) (env : Env) (info : MessageInfo)
    (escrow_id : Nat) :
    (s.escrows escrow_id = none →
      execute_cancel_escrow s env info escrow_id
        = Except.error (ContractError.std StdError.notFound)) ∧
    (∀ e, s.escrows escrow_id = some e →
      (e.creator ≠ info.sender →
        execute_cancel_escrow s env info escrow_id
          = Except.error ContractError.unauthorized) ∧
      (e.creator = info.sender → e.is_completed = true →
        execute_cancel_escrow s env info escrow_id
          = Except.error ContractError.escrowCompleted) ∧
      (e.creator = info.sender → e.is_completed = false → e.approvals ≠ [] →
        execute_cancel_escrow s env info escrow_id
          = Except.error ContractError.unauthorized)) := by
  refine ⟨?_, ?_⟩
  · intro h
    simp [execute_cancel_escrow, h]
  · intro e he
    refine ⟨?_, ?_, ?_⟩
    · intro hcr
      simp only [execute_cancel_escrow, he]
      rw [if_pos hcr]
    · intro hcr hc
      simp only [execute_cancel_escrow, he]
      rw [if_neg (by simp [hcr]), if_pos (by simp [hc])]
    · intro hcr hc hap
      simp only [execute_cancel_escrow, he]
      rw [if_neg (by simp [hcr]), if_neg (by simp [hc]), if_pos (by simp [hap])]

/-- Witness for C4: a non-creator caller is rejected with Unauthorized. -/
theorem cancel_escrow_error_order_witness :
    execute_cancel_escrow stateA envA { sender := "mallory", funds := [] } 1
      = Except.error ContractError.unauthorized :=
  ((cancel_escrow_error_order stateA envA { sender := "mallory", funds := [] } 1).2
    escrowA rfl).1 (by decide)

/-- C8: a successful CancelEscrow marks the record completed while leaving
`completed_at` at `none`, emits the refund transfer of the stored coin to
the creator, and changes no other record field. -/
theorem cancel_escrow_effect (s : State) (env : Env) (info : MessageInfo)
    (escrow_id : Nat) (e : Escrow)
    (he : s.escrows escrow_id = some e)
    (hcr : e.creator = info.sender)
    (hc : e.is_completed = false)
    (hap : e.approvals = [])
    (hnone : e.completed_at = none) :
    ∃ s' r, execute_cancel_escrow s env info escrow_id = Except.ok (s', r) ∧
      r.messages = [{ to_address := e.creator, amount := [e.amount] }] ∧
      ∃ e', s'.escrows escrow_id = some e' ∧
        e'.is_completed = true ∧ e'.completed_at = none ∧
        e'.amount = e.amount ∧ e'.creator = e.creator ∧
        e'.beneficiary = e.beneficiary ∧ e'.approver1 = e.approver1 ∧
        e'.approver2 = e.approver2 ∧ e'.approver3 = e.approver3 ∧
        e'.description = e.description ∧ e'.approvals = e.approvals ∧
        e'.created_at = e.created_at := by
  simp only [execute_cancel_escrow, he]
  rw [if_neg (by simp [hcr]), if_neg (by simp [hc]), if_neg (by simp [hap])]
  refine ⟨_, _, rfl, rfl, ?_⟩
  refine ⟨{ e with is_completed := true }, ?_, rfl, hnone, rfl, rfl, rfl, rfl, rfl, rfl,
    rfl, rfl, rfl⟩
  simp [mapSave]

/-- Witness for C8 on concrete data. -/
theorem cancel_escrow_effect_witness :
    ∃ s' r, execute_cancel_escrow stateA envA { sender := "alice", funds := [] } 1
        = Except.ok (s', r) ∧
      r.messages = [{ to_address := escrowA.creator, amount := [escrowA.amount] }] ∧
      ∃ e', s'.escrows 1 = some e' ∧
        e'.is_completed = true ∧ e'.completed_at = none ∧
        e'.amount = escrowA.amount ∧ e'.creator = escrowA.creator ∧
        e'.beneficiary = escrowA.beneficiary ∧ e'.approver1 = escrowA.approver1 ∧
        e'.approver2 = escrowA.approver2 ∧ e'.approver3 = escrowA.approver3 ∧
        e'.description = escrowA.description ∧ e'.approvals = escrowA.approvals ∧
        e'.created_at = escrowA.created_at :=
  cancel_escrow_effect stateA envA { sender := "alice", funds := [] } 1 escrowA
    rfl rfl rfl rfl rfl

/-- The approver-index loop never touches the counter, the escrow table,
or the creator/beneficiary indexes. -/
theorem foldl_approver_update_fields (eid : Nat) (add : Bool) (l : List Addr)
    (st : State) :
    (l.foldl (approver_index_update eid add) st).escrow_counter = st.escrow_counter ∧
    (l.foldl (approver_index_update eid add) st).escrows = st.escrows ∧
    (l.foldl (approver_index_update eid add) st).escrows_by_creator
      = st.escrows_by_creator ∧
    (l.foldl (approver_index_update eid add) st).escrows_by_beneficiary
      = st.escrows_by_beneficiary := by
  induction l generalizing st with
  | nil => exact ⟨rfl, rfl, rfl, rfl⟩
  | cons b l ih => exact ih (approver_index_update eid add st b)

/-- Effect of the removal loop on the approver index, pointwise: addresses
visited by the loop lose the id, others are untouched. -/
theorem foldl_approver_remove_apply (eid : Nat) (l : List Addr) (st : State)
    (a : Addr) :
    (l.foldl (approver_index_update eid false) st).escrows_by_approver a
      = if a ∈ l
        then some (((st.escrows_by_approver a).getD []).filter (fun i => i ≠ eid))
        else st.escrows_by_approver a := by
  induction l generalizing st with
  | nil => simp
  | cons b l ih =>
    rw [List.foldl_cons, ih]
    by_cases hab : a = b
    · subst hab
      by_cases hal : a ∈ l
      · rw [if_pos hal, if_pos (by simp)]
        simp [approver_index_update, mapSave, List.filter_filter]
      · rw [if_neg hal, if_pos (by simp)]
        simp [approver_index_update, mapSave]
    · have hst : (approver_index_update eid false st b).escrows_by_approver a
          = st.escrows_by_approver a := by
        simp [approver_index_update, mapSave, hab]
      rw [hst]
      by_cases hal : a ∈ l
      · rw [if_pos hal, if_pos (by simp [hal])]
      · rw [if_neg hal, if_neg (by simp [hab, hal])]

theorem mem_approverSlots (e : Escrow) (a : Addr) :
    a ∈ e.approverSlots ↔ a = e.approver1 ∨ a = e.approver2 ∨ e.approver3 = some a := by
  unfold Escrow.approverSlots
  cases e.approver3 with
  | none => simp
  | some x =>
    simp only [List.mem_append, List.mem_cons, List.mem_singleton,
      List.not_mem_nil, or_false, Option.some.injEq]
    rw [@eq_comm _ a x]
    tauto

/-- An address is in the deduplicated approver list iff `is_approver`
accepts it. -/
theorem mem_unique_approvers (e : Escrow) (a : Addr) :
    a ∈ e.unique_approvers ↔ e.is_approver a = true := by
  rw [Escrow.unique_approvers,
    @mem_sortDedup Addr instDecidableEqString addrOrder a e.approverSlots,
    mem_approverSlots]
  simp only [Escrow.is_approver, Bool.or_eq_true, decide_eq_true_eq]
  constructor
  · rintro (h | h | h)
    · exact Or.inl (Or.inl h.symm)
    · exact Or.inl (Or.inr h.symm)
    · exact Or.inr h
  · rintro ((h | h) | h)
    · exact Or.inl h.symm
    · exact Or.inr (Or.inl h.symm)
    · exact Or.inr (Or.inr h)

/-- C7: index maintenance is asymmetric between the two terminal paths — a
successful ApproveRelease (releasing or not) modifies none of the three
address indexes, while a successful CancelEscrow removes the escrow's id
from the creator entry, the beneficiary entry, and the approver entry of
every distinct approver address. -/
theorem index_maintenance_asymmetry (s : State) (env : Env) (info : MessageInfo)
    (escrow_id : Nat) :
    (∀ s' r, execute_approve_release s env info escrow_id = Except.ok (s', r) →
      s'.escrows_by_creator = s.escrows_by_creator ∧
      s'.escrows_by_beneficiary = s.escrows_by_beneficiary ∧
      s'.escrows_by_approver = s.escrows_by_approver) ∧
    (∀ s' r e, s.escrows escrow_id = some e →
      execute_cancel_escrow s env info escrow_id = Except.ok (s', r) →
      s'.escrows_by_creator e.creator
        = some (((s.escrows_by_creator e.creator).getD []).filter (fun i => i ≠ e.id)) ∧
      s'.escrows_by_beneficiary e.beneficiary
        = some (((s.escrows_by_beneficiary e.beneficiary).getD []).filter (fun i => i ≠ e.id)) ∧
      ∀ a, e.is_approver a = true →
        s'.escrows_by_approver a
          = some (((s.escrows_by_approver a).getD []).filter (fun i => i ≠ e.id))) := by
  constructor
  · intro s' r h
    rcases hm : s.escrows escrow_id with _ | e
    · simp [execute_approve_release, hm] at h
    · simp only [execute_approve_release, hm] at h
      split at h
      · exact absurd h (by simp)
      split at h
      · exact absurd h (by simp)
      split at h
      · exact absurd h (by simp)
      split at h
      · simp only [Except.ok.injEq, Prod.mk.injEq] at h
        obtain ⟨hs, _⟩ := h
        subst hs
        exact ⟨rfl, rfl, rfl⟩
      · simp only [Except.ok.injEq, Prod.mk.injEq] at h
        obtain ⟨hs, _⟩ := h
        subst hs
        exact ⟨rfl, rfl, rfl⟩
  · intro s' r e he h
    simp only [execute_cancel_escrow, he] at h
    split at h
    · exact absurd h (by simp)
    split at h
    · exact absurd h (by simp)
    split at h
    · exact absurd h (by simp)
    simp only [Except.ok.injEq, Prod.mk.injEq] at h
    obtain ⟨hs, _⟩ := h
    subst hs
    refine ⟨?_, ?_, ?_⟩
    · simp only [update_escrow_indexes]
      rw [(foldl_approver_update_fields _ _ _ _).2.2.1]
      simp [mapSave]
    · simp only [update_escrow_indexes]
      rw [(foldl_approver_update_fields _ _ _ _).2.2.2]
      simp [mapSave]
    · intro a ha
      simp only [update_escrow_indexes]
      rw [foldl_approver_remove_apply,
        if_pos ((mem_unique_approvers { e with is_completed := true } a).mpr ha)]

/-- The (state, response) pair a concrete successful cancel produces. -/
def cancelResultA : State × Response :=
  match execute_cancel_escrow stateA envA { sender := "alice", funds := [] } 1 with
  | Except.ok p => p
  | Except.error _ => (stateA, { messages := [], attributes := [] })

/-- The (state, response) pair a concrete successful approval produces. -/
def approveResultA : State × Response :=
  match execute_approve_release stateA envA { sender := "carol", funds := [] } 1 with
  | Except.ok p => p
  | Except.error _ => (stateA, { messages := [], attributes := [] })

/-- Witness for C7: on concrete data, cancelling strips the id from all
three indexes while approving leaves the approver index alone. -/
theorem index_maintenance_asymmetry_witness :
    cancelResultA.1.escrows_by_creator "alice" = some [] ∧
    cancelResultA.1.escrows_by_beneficiary "bob" = some [] ∧
    cancelResultA.1.escrows_by_approver "carol" = some [] ∧
    approveResultA.1.escrows_by_approver = stateA.escrows_by_approver := by
  have hc := (index_maintenance_asymmetry stateA envA
      { sender := "alice", funds := [] } 1).2
    cancelResultA.1 cancelResultA.2 escrowA rfl rfl
  have ha := (index_maintenance_asymmetry stateA envA
      { sender := "carol", funds := [] } 1).1
    approveResultA.1 approveResultA.2 rfl
  exact ⟨hc.1.trans (by rfl), hc.2.1.trans (by rfl),
    (hc.2.2 "carol" (by decide)).trans (by rfl), ha.2.2⟩

/-- C9 counterexample: `stateA`'s creator index already holds escrowA's id
(1), yet adding it again is not a no-op — the creator-index add pushes
unconditionally, duplicating the id. -/
theorem index_add_idempotent_counterexample :
    stateA.escrows_by_creator "alice" = some [1] ∧
    (update_escrow_indexes stateA escrowA true).escrows_by_creator "alice"
      = some [1, 1] ∧
    (update_escrow_indexes stateA escrowA true).escrows_by_creator "alice"
      ≠ stateA.escrows_by_creator "alice" := by
  have h2 : (update_escrow_indexes stateA escrowA true).escrows_by_creator "alice"
      = some [1, 1] := by
    rw [update_escrow_indexes, (foldl_approver_update_fields _ _ _ _).2.2.1]
    rfl
  refine ⟨rfl, h2, ?_⟩
  rw [h2, show stateA.escrows_by_creator "alice" = some [1] from rfl]
  decide

/-- Replacing the approver index by an equal map is the identity on the
state record. -/
theorem state_update_approver_eq (st : State) (v : Addr → Option (List Nat))
    (hv : v = st.escrows_by_approver) :
    ({ st with escrows_by_approver := v } : State) = st := by
  subst hv
  rfl

theorem approver_index_update_add_present (eid : Nat) (st : State) (b : Addr)
    (ids : List Nat) (hids : st.escrows_by_approver b = some ids)
    (hmem : eid ∈ ids) :
    approver_index_update eid true st b = st := by
  unfold approver_index_update
  apply state_update_approver_eq
  funext x
  rw [mapSave]
  split
  · rename_i hxb
    subst hxb
    rw [hids]
    simp [hmem]
  · rfl

/-- C9 (amended): only the Approver-role add is idempotent — when every
distinct approver's index entry already lists the escrow id, the add pass
leaves the approver index exactly as it was.  (The Creator/Beneficiary adds
append unconditionally; see the counterexample.) -/
theorem approver_index_add_idempotent (s : State) (e : Escrow)
    (h : ∀ a, a ∈ e.unique_approvers →
      ∃ ids, s.escrows_by_approver a = some ids ∧ e.id ∈ ids) :
    (update_escrow_indexes s e true).escrows_by_approver = s.escrows_by_approver := by
  simp only [update_escrow_indexes]
  have hgen : ∀ (l : List Addr) (st : State),
      (∀ a, a ∈ l → ∃ ids, st.escrows_by_approver a = some ids ∧ e.id ∈ ids) →
      (l.foldl (approver_index_update e.id true) st).escrows_by_approver
        = st.escrows_by_approver := by
    intro l
    induction l with
    | nil => intro st _; rfl
    | cons b l ih =>
      intro st hst
      obtain ⟨ids, hids, hmem⟩ := hst b (by simp)
      rw [List.foldl_cons, approver_index_update_add_present e.id st b ids hids hmem]
      exact ih st (fun a ha => hst a (by simp [ha]))
  exact hgen _ _ (fun a ha => h a ha)

/-- Witness for the amended C9 at concrete data: each of escrowA's three
approvers already lists id 1, and the add pass changes nothing. -/
theorem approver_index_add_idempotent_witness :
    (update_escrow_indexes stateA escrowA true).escrows_by_approver
      = stateA.escrows_by_approver := by
  apply approver_index_add_idempotent
  intro a ha
  have hmem := (mem_unique_approvers escrowA a).mp ha
  have : a = "carol" ∨ a = "dan" ∨ a = "erin" := by
    revert hmem
    rw [Escrow.is_approver]
    simp [escrowA]
    tauto
  rcases this with h | h | h <;> subst h <;> exact ⟨[1], rfl, by decide⟩

/-- C5: CreateEscrow with attached funds that are not exactly one coin, or
whose single coin has zero amount, fails with InsufficientFunds, and the
committed storage — counter, escrow table and all three indexes — is
unchanged. -/
theorem create_escrow_insufficient_funds (api : String → Option Addr) (s : State)
    (env : Env) (info : MessageInfo) (beneficiary approver1 approver2 : String)
    (approver3 : Option String) (description : String)
    (h : info.funds.length ≠ 1 ∨ ∃ c, info.funds = [c] ∧ c.amount = 0) :
    execute_create_escrow api s env info beneficiary approver1 approver2
        approver3 description
      = Except.error ContractError.insufficientFunds ∧
    stateAfter s (execute_create_escrow api s env info beneficiary approver1
        approver2 approver3 description)
      = s := by
  have hmain : execute_create_escrow api s env info beneficiary approver1 approver2
      approver3 description = Except.error ContractError.insufficientFunds := by
    rcases h with h | ⟨c, hc, hz⟩
    · rcases hf : info.funds with _ | ⟨c, _ | ⟨c2, rest⟩⟩
      · simp [execute_create_escrow, hf]
      · exact absurd (by rw [hf]; rfl) h
      · simp [execute_create_escrow, hf]
    · simp [execute_create_escrow, hc, hz]
  refine ⟨hmain, ?_⟩
  rw [hmain]
  rfl

/-- Witness for C5: two attached coins are rejected. -/
theorem create_escrow_insufficient_funds_witness :
    execute_create_escrow api0 stateA envA
        { sender := "alice", funds := [coinA, coinA] } "bob" "carol" "dan" none "demo"
      = Except.error ContractError.insufficientFunds ∧
    stateAfter stateA (execute_create_escrow api0 stateA envA
        { sender := "alice", funds := [coinA, coinA] } "bob" "carol" "dan" none "demo")
      = stateA :=
  create_escrow_insufficient_funds api0 stateA envA
    { sender := "alice", funds := [coinA, coinA] } "bob" "carol" "dan" none "demo"
    (Or.inl (by decide))

/-- C10 counterexample: with a validator that rejects the empty string, a
malformed beneficiary makes CreateEscrow fail with the generic Std
validation error, not with InvalidBeneficiary. -/
theorem create_escrow_invalid_beneficiary_counterexample :
    execute_create_escrow api0 stateA envA { sender := "alice", funds := [coinA] }
        "" "carol" "dan" none "demo"
      = Except.error (ContractError.std StdError.genericErr) ∧
    execute_create_escrow api0 stateA envA { sender := "alice", funds := [coinA] }
        "" "carol" "dan" none "demo"
      ≠ Except.error ContractError.invalidBeneficiary := by
  have hmain : execute_create_escrow api0 stateA envA
      { sender := "alice", funds := [coinA] } "" "carol" "dan" none "demo"
      = Except.error (ContractError.std StdError.genericErr) := by rfl
  refine ⟨hmain, ?_⟩
  rw [hmain]
  intro h
  exact absurd (Except.error.inj h) (by decide)

/-- C10 (amended): CreateEscrow validates each supplied address
independently, but a malformed address — beneficiary or any approver —
fails with the generic Std validation error surfaced through `?`; the
InvalidBeneficiary/InvalidApprover variants are never produced. -/
theorem create_escrow_invalid_address_errors (api : String → Option Addr)
    (s : State) (env : Env) (info : MessageInfo)
    (beneficiary approver1 approver2 : String) (approver3 : Option String)
    (description : String) (c : Coin)
    (hf : info.funds = [c]) (hnz : c.amount ≠ 0) :
    (api beneficiary = none →
      execute_create_escrow api s env info beneficiary approver1 approver2
          approver3 description
        = Except.error (ContractError.std StdError.genericErr)) ∧
    (∀ b, api beneficiary = some b → api approver1 = none →
      execute_create_escrow api s env info beneficiary approver1 approver2
          approver3 description
        = Except.error (ContractError.std StdError.genericErr)) ∧
    (∀ b a1, api beneficiary = some b → api approver1 = some a1 →
      api approver2 = none →
      execute_create_escrow api s env info beneficiary approver1 approver2
          approver3 description
        = Except.error (ContractError.std StdError.genericErr)) ∧
    (∀ b a1 a2 a3, approver3 = some a3 → api beneficiary = some b →
      api approver1 = some a1 → api approver2 = some a2 → api a3 = none →
      execute_create_escrow api s env info beneficiary approver1 approver2
          approver3 description
        = Except.error (ContractError.std StdError.genericErr)) := by
  refine ⟨?_, ?_, ?_, ?_⟩
  · intro hb
    simp [execute_create_escrow, hf, hnz, addr_validate, hb]
  · intro b hb h1
    simp [execute_create_escrow, hf, hnz, addr_validate, hb, h1]
  · intro b a1 hb h1 h2
    simp [execute_create_escrow, hf, hnz, addr_validate, hb, h1, h2]
  · intro b a1 a2 a3 h3s hb h1 h2 h3
    simp [execute_create_escrow, hf, hnz, addr_validate, hb, h1, h2, h3s, h3,
      Except.map]

/-- Witness for the amended C10: empty approver2 under `api0`. -/
theorem create_escrow_invalid_address_errors_witness :
    execute_create_escrow api0 stateA envA { sender := "alice", funds := [coinA] }
        "bob" "carol" "" none "demo"
      = Except.error (ContractError.std StdError.genericErr) :=
  (create_escrow_invalid_address_errors api0 stateA envA
      { sender := "alice", funds := [coinA] } "bob" "carol" "" none "demo" coinA
      rfl (by decide)).2.2.1 "bob" "carol" rfl rfl rfl

/-- Spec-side description of `GetEscrowsByAddress`: union of the id sets of
the three index roles, enumerated in ascending order (which removes
duplicates), keeping ids strictly above `start`, truncated to `lim`, each
resolved to its record with unresolvable ids silently skipped. -/
def escrows_by_address_spec (s : State) (addr : Addr) (start lim : Nat) :
    List Escrow :=
  ((((((s.escrows_by_creator addr).getD []).toFinset
        ∪ ((s.escrows_by_beneficiary addr).getD []).toFinset
        ∪ ((s.escrows_by_approver addr).getD []).toFinset).sort (· ≤ ·)).filter
      (fun id => id > start)).take lim).filterMap s.escrows

/-- C6: on a valid address, `GetEscrowsByAddress` returns exactly the
spec-side result, with `start_after` defaulting to 0 and `limit` to 10. -/
theorem query_escrows_by_address_spec (api : String → Option Addr) (s : State)
    (address : String) (start_after : Option Nat) (limit : Option Nat)
    (addr : Addr) (h : api address = some addr) :
    query_escrows_by_address api s address start_after limit
      = Except.ok
          (escrows_by_address_spec s addr (start_after.getD 0) (limit.getD 10)) := by
  simp only [query_escrows_by_address, h, escrows_by_address_spec,
    sortDedup_eq_sort_toFinset, List.toFinset_append]

/-- Witness for C6 at concrete data. -/
theorem query_escrows_by_address_spec_witness :
    query_escrows_by_address api0 stateA "alice" none none
      = Except.ok (escrows_by_address_spec stateA "alice"
          ((none : Option Nat).getD 0) ((none : Option Nat).getD 10)) :=
  query_escrows_by_address_spec api0 stateA "alice" none none "alice" rfl
